import Mathlib

/-
Verification of the OpenAPI specification transformer in
`packages/open-api-gateway/src/construct/spec/api-gateway-integrations.ts`.

The TypeScript source is shallowly embedded: JavaScript objects whose keys
are strings are represented as association lists in insertion order
(`List (κ × α)`), property lookup is last-match (construction such as
`Object.fromEntries` lets later entries overwrite earlier ones, so reading
a property yields the value of the last entry with that key), and object
spread `\x7b...a, ...b\x7d` is the explicit merge `spreadMerge a b`.
Exceptions (`throw new Error`) are embedded as `Except String`.
-/

/-- JavaScript property read on an entry list: the value of the last entry
with the given key, mirroring the overwrite semantics of object literals and
`Object.fromEntries`. -/
def jsLookup {κ : Type} {α : Type} [DecidableEq κ] : List (κ × α) → κ → Option α
  | [], _ => Option.none
  | e :: rest, k =>
    match jsLookup rest k with
    | Option.some v => Option.some v
    | Option.none => if e.1 = k then Option.some e.2 else Option.none

/-- JavaScript object spread `\x7b...a, ...b\x7d`: keys of `a` keep their
position but take `b`'s value when `b` also has the key; keys of `b` absent
from `a` are appended in order. -/
def spreadMerge {α : Type} (a b : List (String × α)) : List (String × α) :=
  a.map (fun e => (e.1, (jsLookup b e.1).getD e.2)) ++
    b.filter (fun e => (jsLookup a e.1).isNone)

/-
Data model, following `api-gateway-integrations-types.ts` and the types the
main source file consumes from `aws-cdk-lib` and `openapi-types`. The lambda
function handle (`IFunction`) is opaque to the transform; only its identity
is read.
-/

/-- An opaque backend lambda-function handle (`IFunction` from
`aws-cdk-lib/aws-lambda`). -/
structure IFunction where
  handle : String
deriving DecidableEq

/-- The CDK construct scope passed through to invocation-URI construction;
opaque to the transform. -/
structure Construct where
  id : String
deriving DecidableEq

/-- Modelled from the spec: the `Authorizer` type from `../authorizers` is
not under `src/`; §3 describes it as polymorphic over the variants
None, IAM and Custom (handle, authorizerId). -/
inductive Authorizer
  | none
  | iam
  | custom (authorizerId : String) (function : IFunction)
deriving DecidableEq

/-- Modelled from the spec: §4.1 labels each collected authorizer by "its
authorizer identifier"; the Custom variant carries its own id, the built-in
variants use fixed identifiers. -/
def Authorizer.authorizerId : Authorizer → String
  | Authorizer.none => "none"
  | Authorizer.iam => "aws.auth.sigv4"
  | Authorizer.custom i _ => i

/-- Modelled from the spec: `isCustomAuthorizer` from
`../authorizers/predicates` is not under `src/`; it recognises the Custom
variant. -/
def isCustomAuthorizer : Authorizer → Bool
  | Authorizer.custom _ _ => true
  | _ => false

/-- The fixed HTTP-method enumeration `OpenAPIV3.HttpMethods`
(`openapi-types`), in declaration order. -/
inductive Method
  | get | put | post | delete | options | head | patch | trace
deriving DecidableEq

/-- The string value of each `OpenAPIV3.HttpMethods` member. -/
def methodText : Method → String
  | Method.get => "get"
  | Method.put => "put"
  | Method.post => "post"
  | Method.delete => "delete"
  | Method.options => "options"
  | Method.head => "head"
  | Method.patch => "patch"
  | Method.trace => "trace"

/-- `MethodAndPath` from `api-gateway-integrations-types.ts`. -/
structure MethodAndPath where
  method : Method
  path : String
deriving DecidableEq

/-- `OpenApiIntegration`: the integration supplied per operation. The
snapshot of the types file under `src/` predates the main source file, which
also reads an optional per-integration `authorizer` (line 59-60 of
`api-gateway-integrations.ts`); the field is included as consumed there. -/
structure OpenApiIntegration where
  function : IFunction
  authorizer : Option Authorizer := Option.none
deriving DecidableEq

/-- `CorsOptions` from `aws-cdk-lib/aws-apigateway`, restricted to the
fields the source reads: `allowOrigins` (required), `allowHeaders`,
`allowMethods` and `statusCode` (optional). -/
structure CorsOptions where
  allowOrigins : List String
  allowHeaders : Option (List String) := Option.none
  allowMethods : Option (List String) := Option.none
  statusCode : Option Nat := Option.none
deriving DecidableEq

/-- `OpenApiOptions`: integrations and operation lookup keyed by operation
id (JS objects, kept as entry lists in insertion order), plus the optional
default authorizer and CORS options consumed by the main source file. -/
structure OpenApiOptions where
  integrations : List (String × OpenApiIntegration)
  operationLookup : List (String × MethodAndPath)
  defaultAuthorizer : Option Authorizer := Option.none
  corsOptions : Option CorsOptions := Option.none
deriving DecidableEq

/-- An OpenAPI schema fragment; the source only ever writes
`\x7btype: "string"\x7d` here. -/
structure SchemaObject where
  type : String
deriving DecidableEq

/-- An OpenAPI response-header definition (`OpenAPIV3.HeaderObject`), as
written by the source: a schema. -/
structure HeaderObject where
  schema : SchemaObject
deriving DecidableEq

/-- One response of an operation (`OpenAPIV3.ResponseObject`). `headers`
is a JS object (entry list); an absent `headers` property spreads to
nothing, represented by the empty list. Fields the transform never touches
are carried opaquely in `rest`. -/
structure ResponseObject where
  description : String := ""
  headers : List (String × HeaderObject) := []
  content : Option (List (String × String)) := Option.none
  rest : List (String × String) := []
deriving DecidableEq

/-- One entry of the `responses` map of an
`x-amazon-apigateway-integration` directive. -/
structure IntegrationResponse where
  statusCode : String
  responseParameters : List (String × String) := []
  responseTemplates : List (String × String) := []
deriving DecidableEq

/-- The `x-amazon-apigateway-integration` vendor extension, covering the
two shapes the source writes: the AWS_PROXY form (httpMethod, uri,
passthroughBehavior) and the mock form (requestTemplates, responses). -/
structure ApigatewayIntegration where
  type : String
  httpMethod : Option String := Option.none
  uri : Option String := Option.none
  passthroughBehavior : Option String := Option.none
  requestTemplates : List (String × String) := []
  responses : List (String × IntegrationResponse) := []
deriving DecidableEq

/-- Modelled from the spec: the security-requirement fragment produced by
`applyMethodAuthorizer` (in `api-gateway-auth.ts`, not under `src/`);
§4.1: an AWS-SigV4 requirement for IAM, a named scheme reference for
Custom, an explicit no-security marker for None. -/
inductive SecurityRequirement
  | sigv4
  | customScheme (authorizerId : String)
  | noAuth
deriving DecidableEq

/-- An operation object (`OpenAPIV3.OperationObject`). The transform reads
and rewrites `responses`, attaches the integration extension and the
security fragment; every other field is opaque and carried in `rest`. -/
structure OperationObject where
  responses : List (String × ResponseObject) := []
  integration : Option ApigatewayIntegration := Option.none
  security : Option SecurityRequirement := Option.none
  rest : List (String × String) := []
deriving DecidableEq

/-- A path item (`OpenAPIV3.PathItemObject`): one optional operation per
member of the fixed HTTP-method enumeration, plus opaque non-method fields
(e.g. shared parameters) in `rest`. -/
structure PathItemObject where
  get : Option OperationObject := Option.none
  put : Option OperationObject := Option.none
  post : Option OperationObject := Option.none
  delete : Option OperationObject := Option.none
  options : Option OperationObject := Option.none
  head : Option OperationObject := Option.none
  patch : Option OperationObject := Option.none
  trace : Option OperationObject := Option.none
  rest : List (String × String) := []
deriving DecidableEq

/-- `pathItem[method]` for a member of the method enumeration. -/
def getMethod (pi : PathItemObject) : Method → Option OperationObject
  | Method.get => pi.get
  | Method.put => pi.put
  | Method.post => pi.post
  | Method.delete => pi.delete
  | Method.options => pi.options
  | Method.head => pi.head
  | Method.patch => pi.patch
  | Method.trace => pi.trace

/-- Modelled from the spec: a security-scheme definition as produced by
`prepareSecuritySchemes` (in `api-gateway-auth.ts`, not under `src/`). -/
inductive SecurityScheme
  | sigv4
  | custom (authorizerId : String) (function : IFunction)
deriving DecidableEq

/-- The `components` section: security schemes plus opaque remainder. -/
structure ApiComponents where
  securitySchemes : List (String × SecurityScheme) := []
  rest : List (String × String) := []
deriving DecidableEq

/-- The value of one entry of the
`x-amazon-apigateway-request-validators` extension. -/
structure RequestValidator where
  validateRequestBody : Bool
  validateRequestParameters : Bool
deriving DecidableEq

/-- One entry of the `x-amazon-apigateway-gateway-responses` extension. -/
structure GatewayResponse where
  statusCode : Nat
  responseTemplates : List (String × String) := []
  responseParameters : Option (List (String × String)) := Option.none
deriving DecidableEq

/-- An OpenAPI document (`OpenAPIV3.Document`): paths keyed by path string,
components, the vendor extensions the transform writes, and an opaque
remainder preserved by the top-level spread. -/
structure ApiDocument where
  paths : List (String × PathItemObject)
  components : ApiComponents := {}
  requestValidators : List (String × RequestValidator) := []
  requestValidator : Option String := Option.none
  gatewayResponses : List (String × GatewayResponse) := []
  rest : List (String × String) := []
deriving DecidableEq

/-- `LabelledFunction` (source lines 211-220): a lambda function with a
label identifying it. -/
structure LabelledFunction where
  label : String
  function : IFunction
deriving DecidableEq

/-
The transform itself, translated from `api-gateway-integrations.ts`.
Helpers imported from files that are not under `src/` (`utils.ts`,
`api-gateway-auth.ts`, the authorizer module) are modelled from the spec
and marked as such in their doc comments.
-/

/-- Modelled from the spec: `concatMethodAndPath` from `./utils` is not
under `src/`; §4.3 keys the reverse index by "a canonical concatenation of
method and path (exact string equality)". -/
def concatMethodAndPath (mp : MethodAndPath) : String :=
  methodText mp.method ++ "||" ++ mp.path

/-- Modelled from the spec: `functionInvocationUri` from `./utils` is not
under `src/`; §4.4 step 3 computes the backend invocation target from the
integration's opaque handle (resolution delegated to the provisioning
collaborator), so the embedding makes it an opaque injective function of
the scope and the handle. -/
def functionInvocationUri (scope : Construct) (f : IFunction) : String :=
  "arn:" ++ scope.id ++ ":apigateway:lambda:" ++ f.handle

/-- Modelled from the spec: `applyMethodAuthorizer` from
`api-gateway-auth.ts` is not under `src/`; §4.1: the fragment only sets the
operation's security requirement — SigV4 for IAM, a named scheme reference
for Custom, an explicit no-security marker for None. -/
def applyMethodAuthorizer : Authorizer → SecurityRequirement
  | Authorizer.none => SecurityRequirement.noAuth
  | Authorizer.iam => SecurityRequirement.sigv4
  | Authorizer.custom i _ => SecurityRequirement.customScheme i

/-- Source lines 63-64: `authorizer ?? defaultAuthorizer ??
Authorizers.none()` — prefer the integration-level authorizer, else the
document default, else the built-in no-authorization variant. -/
def resolveAuthorizer (integrationAuthorizer defaultAuthorizer : Option Authorizer) :
    Authorizer :=
  match integrationAuthorizer with
  | Option.some a => a
  | Option.none =>
    match defaultAuthorizer with
    | Option.some d => d
    | Option.none => Authorizer.none

/-- The error message of source lines 54-56. -/
def missingIntegrationMessage (operationName : String) (method : Method)
    (path : String) : String :=
  "Missing required integration for operation " ++ operationName ++
    " (" ++ methodText method ++ " " ++ path ++ ")"

/-- `getCorsHeaderDefinitions` (source lines 95-107): the three CORS
header definitions, each a string schema. -/
def getCorsHeaderDefinitions : List (String × HeaderObject) :=
  [("Access-Control-Allow-Origin", { schema := { type := "string" } }),
   ("Access-Control-Allow-Methods", { schema := { type := "string" } }),
   ("Access-Control-Allow-Headers", { schema := { type := "string" } })]

/-- `Cors.DEFAULT_HEADERS` from `aws-cdk-lib/aws-apigateway`. -/
def corsDefaultHeaders : List String :=
  ["Content-Type", "X-Amz-Date", "Authorization", "X-Api-Key",
   "X-Amz-Security-Token", "X-Amz-User-Agent"]

/-- `Cors.ALL_METHODS` from `aws-cdk-lib/aws-apigateway`. -/
def corsAllMethods : List String :=
  ["OPTIONS", "GET", "PUT", "POST", "DELETE", "PATCH", "HEAD"]

/-- `generateCorsResponseHeaders` (source lines 109-119): each list joined
by commas inside single quotes; a missing (undefined) list falls back to
the CDK default — note that in JS an empty array is truthy, so an empty
supplied list is used as-is. -/
def generateCorsResponseHeaders (corsOptions : CorsOptions) :
    List (String × String) :=
  [("Access-Control-Allow-Headers",
    "\x27" ++ String.intercalate ","
      (corsOptions.allowHeaders.getD corsDefaultHeaders) ++ "\x27"),
   ("Access-Control-Allow-Methods",
    "\x27" ++ String.intercalate ","
      (corsOptions.allowMethods.getD corsAllMethods) ++ "\x27"),
   ("Access-Control-Allow-Origin",
    "\x27" ++ String.intercalate "," corsOptions.allowOrigins ++ "\x27")]

/-- `generateCorsResponseParameters` (source lines 121-129): the same
values, each key prefixed. -/
def generateCorsResponseParameters (corsOptions : CorsOptions)
    (pfx : String := "method.response.header") : List (String × String) :=
  (generateCorsResponseHeaders corsOptions).map
    (fun e => (pfx ++ "." ++ e.1, e.2))

/-- Source line 143: `corsOptions.statusCode || 204` — JS `||` treats the
number 0 as falsy, so both an absent status code and a supplied 0 yield
204. -/
def corsStatusCode (corsOptions : CorsOptions) : Nat :=
  match corsOptions.statusCode with
  | Option.some n => if n = 0 then 204 else n
  | Option.none => 204

/-- `generateCorsOptionsMethod` (source lines 134-174): the synthetic CORS
preflight OPTIONS operation, or nothing (`\x7b\x7d`) when an OPTIONS method
already exists on the path item or CORS is not enabled. The generated
operation carries no security fragment. -/
def generateCorsOptionsMethod (pathItem : PathItemObject)
    (opts : OpenApiOptions) : Option OperationObject :=
  if (getMethod pathItem Method.options).isSome then Option.none
  else
    match opts.corsOptions with
    | Option.none => Option.none
    | Option.some corsOptions =>
      Option.some
        { responses :=
            [(toString (corsStatusCode corsOptions),
              { description := "Default response for CORS method",
                headers := getCorsHeaderDefinitions,
                content := Option.some [] })],
          integration := Option.some
            { type := "mock",
              requestTemplates :=
                [("application/json",
                  "\x7b\"statusCode\": " ++
                    toString (corsStatusCode corsOptions) ++ "\x7d")],
              responses :=
                [("default",
                  { statusCode := toString (corsStatusCode corsOptions),
                    responseParameters :=
                      generateCorsResponseParameters corsOptions,
                    responseTemplates := [("application/json", "\x7b\x7d")] })] },
          security := Option.none,
          rest := [("summary", "CORS Support"),
                   ("description", "Enable CORS by returning the correct headers")] }

/-- Source line 77: `corsOptions ? getCorsHeaderDefinitions() : \x7b\x7d`
(an options object is always truthy). -/
def corsHeadersIfEnabled (opts : OpenApiOptions) : List (String × HeaderObject) :=
  match opts.corsOptions with
  | Option.some _ => getCorsHeaderDefinitions
  | Option.none => []

/-- `applyMethodIntegration` (source lines 44-93). The resolved operation
name is a JS string-typed value that is `undefined` on a reverse-index
miss; both the `in` membership test and the error template coerce it to
the property key/string `"undefined"`, which the embedding makes explicit
with `.getD "undefined"`. On success the operation spread keeps every
other field, rewrites each response's headers by spreading the CORS
definitions under the author's headers, attaches the AWS_PROXY integration
directive and the resolved authorizer's security fragment. -/
def applyMethodIntegration (scope : Construct) (path : String) (method : Method)
    (opts : OpenApiOptions) (operation : OperationObject)
    (getOperationName : MethodAndPath → Option String) :
    Except String OperationObject :=
  let operationName :=
    (getOperationName { method := method, path := path }).getD "undefined"
  match jsLookup opts.integrations operationName with
  | Option.none =>
    Except.error (missingIntegrationMessage operationName method path)
  | Option.some integ =>
    let methodAuthorizer := resolveAuthorizer integ.authorizer opts.defaultAuthorizer
    let uri := functionInvocationUri scope integ.function
    Except.ok
      { operation with
        responses := operation.responses.map (fun e =>
          (e.1, { e.2 with
                  headers := spreadMerge (corsHeadersIfEnabled opts) e.2.headers })),
        integration := Option.some
          { type := "AWS_PROXY",
            httpMethod := Option.some "POST",
            uri := Option.some uri,
            passthroughBehavior := Option.some "WHEN_NO_MATCH" },
        security := Option.some (applyMethodAuthorizer methodAuthorizer) }

/-- One step of the method map of `preparePathSpec` (source lines 188-202):
an absent method is skipped, a present one is composed (a thrown error
propagates). -/
def composeMethod (scope : Construct) (path : String) (opts : OpenApiOptions)
    (g : MethodAndPath → Option String) (o : Option OperationObject)
    (method : Method) : Except String (Option OperationObject) :=
  match o with
  | Option.none => Except.ok Option.none
  | Option.some op =>
    match applyMethodIntegration scope path method opts op g with
    | Except.error e => Except.error e
    | Except.ok op2 => Except.ok (Option.some op2)

/-- `preparePathSpec` (source lines 179-206): spread of the original path
item, the composed entry for every present method (iterated in enumeration
order, aborting at the first failure as a JS throw does), and last the
synthetic CORS preflight method, which only contributes an `options` key
when it is generated at all. -/
def preparePathSpec (scope : Construct) (path : String)
    (pathItem : PathItemObject) (opts : OpenApiOptions)
    (g : MethodAndPath → Option String) : Except String PathItemObject :=
  match composeMethod scope path opts g pathItem.get Method.get with
  | Except.error e => Except.error e
  | Except.ok vGet =>
  match composeMethod scope path opts g pathItem.put Method.put with
  | Except.error e => Except.error e
  | Except.ok vPut =>
  match composeMethod scope path opts g pathItem.post Method.post with
  | Except.error e => Except.error e
  | Except.ok vPost =>
  match composeMethod scope path opts g pathItem.delete Method.delete with
  | Except.error e => Except.error e
  | Except.ok vDelete =>
  match composeMethod scope path opts g pathItem.options Method.options with
  | Except.error e => Except.error e
  | Except.ok vOptions =>
  match composeMethod scope path opts g pathItem.head Method.head with
  | Except.error e => Except.error e
  | Except.ok vHead =>
  match composeMethod scope path opts g pathItem.patch Method.patch with
  | Except.error e => Except.error e
  | Except.ok vPatch =>
  match composeMethod scope path opts g pathItem.trace Method.trace with
  | Except.error e => Except.error e
  | Except.ok vTrace =>
  Except.ok
    { get := vGet, put := vPut, post := vPost, delete := vDelete,
      options :=
        match generateCorsOptionsMethod pathItem opts with
        | Option.some corsMethod => Option.some corsMethod
        | Option.none => vOptions,
      head := vHead, patch := vPatch, trace := vTrace,
      rest := pathItem.rest }

/-- Left-to-right effectful map over a list in `Except`, aborting at the
first error — the JS `Array.prototype.map` with a throwing callback. -/
def exceptMapList {α β : Type} (f : α → Except String β) :
    List α → Except String (List β)
  | [] => Except.ok []
  | a :: rest =>
    match f a with
    | Except.error e => Except.error e
    | Except.ok b =>
      match exceptMapList f rest with
      | Except.error e => Except.error e
      | Except.ok bs => Except.ok (b :: bs)

/-- Key deduplication keeping first occurrences, for `Object.fromEntries`. -/
def dedupKeys {κ : Type} [DecidableEq κ] : List κ → List κ
  | [] => []
  | k :: rest => k :: (dedupKeys rest).filter (fun k2 => if k2 = k then false else true)

/-- `Object.fromEntries`: keys in first-occurrence order, each carrying the
value of its last entry. -/
def jsFromEntries {α : Type} (l : List (String × α)) : List (String × α) :=
  (dedupKeys (l.map Prod.fst)).filterMap
    (fun k => (jsLookup l k).map (fun v => (k, v)))

/-- Modelled from the spec: `getAllAuthorizers` from `api-gateway-auth.ts`
is not under `src/`; §4.1 collects the default authorizer and every
integration-level authorizer, "each distinct ... exactly once, labelled by
its authorizer identifier", i.e. deduplicated by authorizer id. -/
def getAllAuthorizers (opts : OpenApiOptions) : List Authorizer :=
  (jsFromEntries
    ((opts.defaultAuthorizer.toList ++
        opts.integrations.filterMap (fun e => e.2.authorizer)).map
      (fun a => (a.authorizerId, a)))).map Prod.snd

/-- `getLabelledAuthorizerFunctions` (source lines 225-233): the custom
authorizers among all authorizers, labelled by authorizer id. -/
def getLabelledAuthorizerFunctions (opts : OpenApiOptions) :
    List LabelledFunction :=
  (getAllAuthorizers opts).filterMap (fun a =>
    match a with
    | Authorizer.custom i f => Option.some { label := i, function := f }
    | _ => Option.none)

/-- `getLabelledIntegrationFunctions` (source lines 238-244): one entry per
integration, labelled by operation id. -/
def getLabelledIntegrationFunctions (opts : OpenApiOptions) :
    List LabelledFunction :=
  opts.integrations.map (fun e => { label := e.1, function := e.2.function })

/-- `getLabelledFunctions` (source lines 249-252): authorizer functions
concatenated with integration functions. -/
def getLabelledFunctions (opts : OpenApiOptions) : List LabelledFunction :=
  getLabelledAuthorizerFunctions opts ++ getLabelledIntegrationFunctions opts

/-- Modelled from the spec: `prepareSecuritySchemes` from
`api-gateway-auth.ts` is not under `src/`; §4.6 step 5 makes the
security-scheme section carry a definition per referenced Custom
authorizer. Its call site (source line 312) passes only the scope and the
options. -/
def prepareSecuritySchemes (opts : OpenApiOptions) :
    List (String × SecurityScheme) :=
  (getAllAuthorizers opts).filterMap (fun a =>
    match a with
    | Authorizer.custom i f => Option.some (i, SecurityScheme.custom i f)
    | _ => Option.none)

/-- The reverse index of `prepareApiSpec` (source lines 263-270):
`Object.fromEntries` over the operation-lookup entries mapped to
(concatenated method and path, operation name); later entries overwrite
earlier ones on collision. -/
def operationNameByPath (opts : OpenApiOptions) : List (String × String) :=
  jsFromEntries
    (opts.operationLookup.map (fun e => (concatMethodAndPath e.2, e.1)))

/-- `getOperationName` (source lines 271-272): property read on the
reverse index; a miss yields JS `undefined`, embedded as `Option.none`. -/
def getOperationName (opts : OpenApiOptions) (mp : MethodAndPath) :
    Option String :=
  jsLookup (operationNameByPath opts) (concatMethodAndPath mp)

/-- The fixed BAD_REQUEST_BODY gateway response of source lines 285-301. -/
def badRequestBodyResponse (opts : OpenApiOptions) : GatewayResponse :=
  { statusCode := 400,
    responseTemplates :=
      [("application/json",
        "\x7b\"message\": \"$context.error.validationErrorString\"\x7d")],
    responseParameters :=
      match opts.corsOptions with
      | Option.some c =>
        Option.some (generateCorsResponseParameters c "gatewayresponse.header")
      | Option.none => Option.none }

/-- `prepareApiSpec` (source lines 257-315): builds the reverse index,
rewrites every path (a throw anywhere aborts the whole transform), injects
the request-validator and gateway-response extensions and rewrites the
security schemes, spreading the original document so its other fields are
preserved. -/
def prepareApiSpec (scope : Construct) (spec : ApiDocument)
    (opts : OpenApiOptions) : Except String ApiDocument :=
  match exceptMapList
      (fun e =>
        match preparePathSpec scope e.1 e.2 opts (getOperationName opts) with
        | Except.error er => Except.error er
        | Except.ok pi2 => Except.ok (e.1, pi2))
      spec.paths with
  | Except.error e => Except.error e
  | Except.ok newPaths =>
    Except.ok
      { paths := newPaths,
        components :=
          { securitySchemes := prepareSecuritySchemes opts,
            rest := spec.components.rest },
        requestValidators :=
          [("all", { validateRequestBody := true,
                     validateRequestParameters := true })],
        requestValidator := Option.some "all",
        gatewayResponses := [("BAD_REQUEST_BODY", badRequestBodyResponse opts)],
        rest := spec.rest }

/-
Claim theorems. Concrete sample data for the witnesses follows first.
-/

def scW : Construct := { id := "Api" }

def fnA : IFunction := { handle := "backing-fn" }

def opA : OperationObject := { responses := [("200", { description := "ok" })] }

def optsC1 : OpenApiOptions :=
  { integrations := [("other", { function := fnA })],
    operationLookup :=
      [("sayHello", { method := Method.get, path := "/hello" })] }

def docC1 : ApiDocument :=
  { paths := [("/hello", { get := Option.some opA })] }

def corsW : CorsOptions := { allowOrigins := ["https://example.com"] }

def respB : ResponseObject :=
  { description := "ok",
    headers :=
      [("Access-Control-Allow-Origin", { schema := { type := "author-defined" } }),
       ("X-Custom", { schema := { type := "number" } })] }

def opB : OperationObject := { responses := [("200", respB)] }

def optsC2 : OpenApiOptions :=
  { integrations := [("sayHello", { function := fnA })],
    operationLookup :=
      [("sayHello", { method := Method.get, path := "/hello" })],
    corsOptions := Option.some corsW }

def corsZ : CorsOptions :=
  { allowOrigins := ["https://example.com"], statusCode := Option.some 0 }

def optsC3 : OpenApiOptions :=
  { integrations := [], operationLookup := [],
    corsOptions := Option.some corsZ }

def corsW2 : CorsOptions :=
  { allowOrigins := ["https://example.com"], statusCode := Option.some 200 }

def optsC3b : OpenApiOptions :=
  { integrations := [], operationLookup := [],
    corsOptions := Option.some corsW2 }

def optsC3c : OpenApiOptions :=
  { integrations := [("optHello", { function := fnA })],
    operationLookup :=
      [("optHello", { method := Method.options, path := "/hello" })],
    corsOptions := Option.some corsW }

def piAuthor : PathItemObject := { options := Option.some opA }

def authC : Authorizer := Authorizer.custom "authX" { handle := "auth-fn" }

def optsC4 : OpenApiOptions :=
  { integrations :=
      [("sayHello", { function := fnA, authorizer := Option.some authC })],
    operationLookup :=
      [("sayHello", { method := Method.get, path := "/hello" })],
    defaultAuthorizer := Option.some Authorizer.iam }

def mpPets : MethodAndPath := { method := Method.get, path := "/pets" }

def optsC5 : OpenApiOptions :=
  { integrations :=
      [("listPets", { function := fnA }),
       ("getPets", { function := { handle := "get-fn" } })],
    operationLookup := [("listPets", mpPets), ("getPets", mpPets)] }

def docC5 : ApiDocument := { paths := [("/pets", { get := Option.some opA })] }

def fnU : IFunction := { handle := "fallback-fn" }

def optsC6 : OpenApiOptions :=
  { integrations := [("undefined", { function := fnU })],
    operationLookup := [] }

def docC6 : ApiDocument := { paths := [("/pets", { get := Option.some opA })] }

def optsC6b : OpenApiOptions :=
  { integrations := [("other", { function := fnA })],
    operationLookup := [] }

def docC6b : ApiDocument := { paths := [("/pets", { get := Option.some opA })] }

def corsEmpty : CorsOptions := { allowOrigins := [] }

def optsC7 : OpenApiOptions :=
  { integrations := [("listPets", { function := fnA })],
    operationLookup := [("listPets", mpPets)],
    corsOptions := Option.some corsEmpty }

def docC7 : ApiDocument := { paths := [("/pets", { get := Option.some opA })] }

def fnShared : IFunction := { handle := "shared-fn" }

def optsC8 : OpenApiOptions :=
  { integrations :=
      [("sayHello", { function := fnShared }),
       ("sayGoodbye", { function := fnShared })],
    operationLookup :=
      [("sayHello", { method := Method.get, path := "/hello" }),
       ("sayGoodbye", { method := Method.post, path := "/goodbye" })] }

def opC9 : OperationObject :=
  { responses := [("200", respB)],
    rest := [("summary", "Say hello"), ("operationId", "sayHello")] }

def piC9 : PathItemObject :=
  { get := Option.some opC9, rest := [("parameters", "shared")] }

def optsC10 : OpenApiOptions :=
  { integrations := [("listPets", { function := fnA })],
    operationLookup := [("listPets", mpPets)],
    defaultAuthorizer := Option.some Authorizer.iam,
    corsOptions := Option.some corsW }

def piC10 : PathItemObject := { get := Option.some opA }

theorem jsLookup_append {κ α : Type} [DecidableEq κ] (a b : List (κ × α)) (k : κ) :
    jsLookup (a ++ b) k =
      match jsLookup b k with
      | Option.some v => Option.some v
      | Option.none => jsLookup a k := by
  induction a with
  | nil =>
    simp only [List.nil_append, jsLookup]
    cases jsLookup b k <;> rfl
  | cons e rest ih =>
    show jsLookup (e :: (rest ++ b)) k = _
    simp only [jsLookup, ih]
    cases jsLookup b k <;> cases jsLookup rest k <;> simp

theorem jsLookup_map_entry {κ α β : Type} [DecidableEq κ] (f : κ → α → β)
    (l : List (κ × α)) (k : κ) :
    jsLookup (l.map (fun e => (e.1, f e.1 e.2))) k = (jsLookup l k).map (f k) := by
  induction l with
  | nil => rfl
  | cons e rest ih =>
    simp only [List.map_cons, jsLookup, ih]
    cases h : jsLookup rest k with
    | some v => rfl
    | none =>
      by_cases hk : e.1 = k
      · subst hk; simp
      · simp [hk]

theorem jsLookup_filter_pos {κ α : Type} [DecidableEq κ] (q : κ → Bool)
    (l : List (κ × α)) (k : κ) (hqk : q k = true) :
    jsLookup (l.filter (fun e => q e.1)) k = jsLookup l k := by
  induction l with
  | nil => rfl
  | cons e rest ih =>
    simp only [List.filter_cons]
    by_cases hq : q e.1
    · simp only [hq, if_pos]
      show jsLookup (e :: _) k = _
      simp only [jsLookup, ih]
    · have hek : e.1 ≠ k := by
        intro h
        rw [h, hqk] at hq
        exact hq rfl
      simp only [hq, Bool.false_eq_true, if_false, ih]
      simp only [jsLookup]
      cases jsLookup rest k <;> simp [hek]

theorem jsLookup_filter_neg {κ α : Type} [DecidableEq κ] (q : κ → Bool)
    (l : List (κ × α)) (k : κ) (hqk : q k = false) :
    jsLookup (l.filter (fun e => q e.1)) k = Option.none := by
  induction l with
  | nil => rfl
  | cons e rest ih =>
    simp only [List.filter_cons]
    by_cases hq : q e.1
    · have hek : e.1 ≠ k := by
        intro h
        rw [h, hqk] at hq
        exact Bool.noConfusion hq
      simp only [hq, if_pos]
      show jsLookup (e :: _) k = _
      simp [jsLookup, ih, hek]
    · simp [hq, ih]

/-- Reading a key from a spread merge: `b` wins where it has the key,
otherwise `a`'s value survives. -/
theorem jsLookup_spreadMerge {α : Type} (a b : List (String × α)) (k : String) :
    jsLookup (spreadMerge a b) k =
      match jsLookup b k with
      | Option.some v => Option.some v
      | Option.none => jsLookup a k := by
  unfold spreadMerge
  rw [jsLookup_append]
  have hmap : jsLookup (a.map (fun e => (e.1, (jsLookup b e.1).getD e.2))) k =
      (jsLookup a k).map (fun v => (jsLookup b k).getD v) :=
    jsLookup_map_entry (fun s v => (jsLookup b s).getD v) a k
  rw [hmap]
  cases ha : jsLookup a k with
  | some va =>
    rw [jsLookup_filter_neg (fun s => (jsLookup a s).isNone) b k (by simp [ha])]
    cases hb : jsLookup b k <;> simp
  | none =>
    rw [jsLookup_filter_pos (fun s => (jsLookup a s).isNone) b k (by simp [ha])]
    cases hb : jsLookup b k <;> simp

/-
Inversion lemmas used by the claim theorems.
-/

theorem applyMethodIntegration_ok_inv {scope : Construct} {path : String}
    {method : Method} {opts : OpenApiOptions} {operation : OperationObject}
    {g : MethodAndPath → Option String} {op' : OperationObject}
    (h : applyMethodIntegration scope path method opts operation g = Except.ok op') :
    ∃ integ,
      jsLookup opts.integrations
        ((g { method := method, path := path }).getD "undefined") =
          Option.some integ ∧
      op' = { operation with
              responses := operation.responses.map (fun e =>
                (e.1, { e.2 with
                        headers := spreadMerge (corsHeadersIfEnabled opts)
                          e.2.headers })),
              integration := Option.some
                { type := "AWS_PROXY", httpMethod := Option.some "POST",
                  uri := Option.some (functionInvocationUri scope integ.function),
                  passthroughBehavior := Option.some "WHEN_NO_MATCH" },
              security := Option.some (applyMethodAuthorizer
                (resolveAuthorizer integ.authorizer opts.defaultAuthorizer)) } := by
  simp only [applyMethodIntegration] at h
  split at h
  · exact Except.noConfusion h
  · rename_i integ hj
    injection h with hop
    exact ⟨integ, hj, hop.symm⟩

theorem applyMethodIntegration_error_inv {scope : Construct} {path : String}
    {method : Method} {opts : OpenApiOptions} {operation : OperationObject}
    {g : MethodAndPath → Option String} {e : String}
    (h : applyMethodIntegration scope path method opts operation g =
      Except.error e) :
    jsLookup opts.integrations
      ((g { method := method, path := path }).getD "undefined") =
        Option.none ∧
    e = missingIntegrationMessage
      ((g { method := method, path := path }).getD "undefined") method path := by
  simp only [applyMethodIntegration] at h
  split at h
  · rename_i hj
    injection h with he
    exact ⟨hj, he.symm⟩
  · exact Except.noConfusion h

theorem composeMethod_error_inv {scope : Construct} {path : String}
    {opts : OpenApiOptions} {g : MethodAndPath → Option String}
    {o : Option OperationObject} {method : Method} {e : String}
    (h : composeMethod scope path opts g o method = Except.error e) :
    ∃ op, o = Option.some op ∧
      applyMethodIntegration scope path method opts op g = Except.error e := by
  cases o with
  | none => exact Except.noConfusion h
  | some op =>
    simp only [composeMethod] at h
    split at h
    · rename_i e2 ha
      injection h with he
      exact ⟨op, rfl, he ▸ ha⟩
    · exact Except.noConfusion h

theorem composeMethod_ok_some {scope : Construct} {path : String}
    {opts : OpenApiOptions} {g : MethodAndPath → Option String}
    {op : OperationObject} {method : Method} {v : Option OperationObject}
    (h : composeMethod scope path opts g (Option.some op) method = Except.ok v) :
    ∃ op2, applyMethodIntegration scope path method opts op g = Except.ok op2 ∧
      v = Option.some op2 := by
  simp only [composeMethod] at h
  split at h
  · exact Except.noConfusion h
  · rename_i op2 ha
    injection h with hv
    exact ⟨op2, ha, hv.symm⟩

theorem preparePathSpec_ok_inv {scope : Construct} {path : String}
    {pathItem : PathItemObject} {opts : OpenApiOptions}
    {g : MethodAndPath → Option String} {pi2 : PathItemObject}
    (h : preparePathSpec scope path pathItem opts g = Except.ok pi2) :
    ∃ vGet vPut vPost vDelete vOptions vHead vPatch vTrace,
      composeMethod scope path opts g pathItem.get Method.get = Except.ok vGet ∧
      composeMethod scope path opts g pathItem.put Method.put = Except.ok vPut ∧
      composeMethod scope path opts g pathItem.post Method.post = Except.ok vPost ∧
      composeMethod scope path opts g pathItem.delete Method.delete = Except.ok vDelete ∧
      composeMethod scope path opts g pathItem.options Method.options = Except.ok vOptions ∧
      composeMethod scope path opts g pathItem.head Method.head = Except.ok vHead ∧
      composeMethod scope path opts g pathItem.patch Method.patch = Except.ok vPatch ∧
      composeMethod scope path opts g pathItem.trace Method.trace = Except.ok vTrace ∧
      pi2 = { get := vGet, put := vPut, post := vPost, delete := vDelete,
              options :=
                match generateCorsOptionsMethod pathItem opts with
                | Option.some corsMethod => Option.some corsMethod
                | Option.none => vOptions,
              head := vHead, patch := vPatch, trace := vTrace,
              rest := pathItem.rest } := by
  unfold preparePathSpec at h
  split at h
  · exact Except.noConfusion h
  rename_i vGet h1
  split at h
  · exact Except.noConfusion h
  rename_i vPut h2
  split at h
  · exact Except.noConfusion h
  rename_i vPost h3
  split at h
  · exact Except.noConfusion h
  rename_i vDelete h4
  split at h
  · exact Except.noConfusion h
  rename_i vOptions h5
  split at h
  · exact Except.noConfusion h
  rename_i vHead h6
  split at h
  · exact Except.noConfusion h
  rename_i vPatch h7
  split at h
  · exact Except.noConfusion h
  rename_i vTrace h8
  injection h with hp
  exact ⟨vGet, vPut, vPost, vDelete, vOptions, vHead, vPatch, vTrace,
    h1, h2, h3, h4, h5, h6, h7, h8, hp.symm⟩

theorem preparePathSpec_ok_method {scope : Construct} {path : String}
    {pathItem : PathItemObject} {opts : OpenApiOptions}
    {g : MethodAndPath → Option String} {pi2 : PathItemObject}
    (h : preparePathSpec scope path pathItem opts g = Except.ok pi2)
    (method : Method) :
    ∃ v, composeMethod scope path opts g (getMethod pathItem method) method =
      Except.ok v := by
  obtain ⟨vGet, vPut, vPost, vDelete, vOptions, vHead, vPatch, vTrace,
    h1, h2, h3, h4, h5, h6, h7, h8, _⟩ := preparePathSpec_ok_inv h
  cases method
  exacts [⟨vGet, h1⟩, ⟨vPut, h2⟩, ⟨vPost, h3⟩, ⟨vDelete, h4⟩,
    ⟨vOptions, h5⟩, ⟨vHead, h6⟩, ⟨vPatch, h7⟩, ⟨vTrace, h8⟩]

theorem preparePathSpec_error_inv {scope : Construct} {path : String}
    {pathItem : PathItemObject} {opts : OpenApiOptions}
    {g : MethodAndPath → Option String} {e : String}
    (h : preparePathSpec scope path pathItem opts g = Except.error e) :
    ∃ method op, getMethod pathItem method = Option.some op ∧
      applyMethodIntegration scope path method opts op g = Except.error e := by
  unfold preparePathSpec at h
  split at h
  · rename_i e1 h1
    injection h with he
    obtain ⟨op, ho, ha⟩ := composeMethod_error_inv (he ▸ h1)
    exact ⟨Method.get, op, ho, ha⟩
  rename_i vGet h1
  split at h
  · rename_i e1 h2
    injection h with he
    obtain ⟨op, ho, ha⟩ := composeMethod_error_inv (he ▸ h2)
    exact ⟨Method.put, op, ho, ha⟩
  rename_i vPut h2
  split at h
  · rename_i e1 h3
    injection h with he
    obtain ⟨op, ho, ha⟩ := composeMethod_error_inv (he ▸ h3)
    exact ⟨Method.post, op, ho, ha⟩
  rename_i vPost h3
  split at h
  · rename_i e1 h4
    injection h with he
    obtain ⟨op, ho, ha⟩ := composeMethod_error_inv (he ▸ h4)
    exact ⟨Method.delete, op, ho, ha⟩
  rename_i vDelete h4
  split at h
  · rename_i e1 h5
    injection h with he
    obtain ⟨op, ho, ha⟩ := composeMethod_error_inv (he ▸ h5)
    exact ⟨Method.options, op, ho, ha⟩
  rename_i vOptions h5
  split at h
  · rename_i e1 h6
    injection h with he
    obtain ⟨op, ho, ha⟩ := composeMethod_error_inv (he ▸ h6)
    exact ⟨Method.head, op, ho, ha⟩
  rename_i vHead h6
  split at h
  · rename_i e1 h7
    injection h with he
    obtain ⟨op, ho, ha⟩ := composeMethod_error_inv (he ▸ h7)
    exact ⟨Method.patch, op, ho, ha⟩
  rename_i vPatch h7
  split at h
  · rename_i e1 h8
    injection h with he
    obtain ⟨op, ho, ha⟩ := composeMethod_error_inv (he ▸ h8)
    exact ⟨Method.trace, op, ho, ha⟩
  rename_i vTrace h8
  exact Except.noConfusion h

theorem exceptMapList_ok_mem {α β : Type} {f : α → Except String β}
    {l : List α} {r : List β} (h : exceptMapList f l = Except.ok r)
    {a : α} (ha : a ∈ l) : ∃ b, f a = Except.ok b := by
  induction l generalizing r with
  | nil => cases ha
  | cons x rest ih =>
    simp only [exceptMapList] at h
    split at h
    · exact Except.noConfusion h
    · rename_i b hb
      split at h
      · exact Except.noConfusion h
      · rename_i bs hbs
        cases ha with
        | head => exact ⟨b, hb⟩
        | tail _ hmem => exact ih hbs hmem

theorem exceptMapList_error_inv {α β : Type} {f : α → Except String β}
    {l : List α} {e : String} (h : exceptMapList f l = Except.error e) :
    ∃ a, a ∈ l ∧ f a = Except.error e := by
  induction l with
  | nil => exact Except.noConfusion h
  | cons x rest ih =>
    simp only [exceptMapList] at h
    split at h
    · rename_i e2 hx
      injection h with he
      exact ⟨x, List.mem_cons_self x rest, he ▸ hx⟩
    · rename_i b hb
      split at h
      · rename_i e2 hrest
        injection h with he
        obtain ⟨a, hmem, hfa⟩ := ih (he ▸ hrest)
        exact ⟨a, List.mem_cons_of_mem x hmem, hfa⟩
      · exact Except.noConfusion h

theorem prepareApiSpec_ok_path {scope : Construct} {spec : ApiDocument}
    {opts : OpenApiOptions} {d : ApiDocument}
    (h : prepareApiSpec scope spec opts = Except.ok d)
    {p : String} {pi : PathItemObject} (hmem : (p, pi) ∈ spec.paths) :
    ∃ pi2, preparePathSpec scope p pi opts (getOperationName opts) =
      Except.ok pi2 := by
  simp only [prepareApiSpec] at h
  split at h
  · exact Except.noConfusion h
  · rename_i newPaths hnp
    obtain ⟨b, hb⟩ := exceptMapList_ok_mem hnp hmem
    split at hb
    · exact Except.noConfusion hb
    · rename_i pi2 hpi
      exact ⟨pi2, hpi⟩

theorem prepareApiSpec_error_inv {scope : Construct} {spec : ApiDocument}
    {opts : OpenApiOptions} {e : String}
    (h : prepareApiSpec scope spec opts = Except.error e) :
    ∃ p pi, (p, pi) ∈ spec.paths ∧
      preparePathSpec scope p pi opts (getOperationName opts) =
        Except.error e := by
  simp only [prepareApiSpec] at h
  split at h
  · rename_i e2 hml
    injection h with he
    obtain ⟨a, hmem, hfa⟩ := exceptMapList_error_inv (he ▸ hml)
    split at hfa
    · rename_i er hp
      injection hfa with he2
      refine ⟨a.1, a.2, ?_, he2 ▸ hp⟩
      rw [Prod.mk.eta]
      exact hmem
    · exact Except.noConfusion hfa
  · exact Except.noConfusion h

/-- Claim C1: for every path and HTTP method present in the input document,
if the operation identifier resolved for that (method, path) has no entry in
the integrations mapping, the transform throws an error whose message names
the operation identifier, the method and the path, and no output document is
produced. The first conjunct gives the exact message thrown by the method
composer for the offending operation; the second that the whole transform
yields no document; the third that the transform's actual error is a
missing-integration message naming an offending operation identifier, method
and path (the first such offender in traversal order when several exist). -/
theorem missingIntegration_aborts_transform
    (scope : Construct) (spec : ApiDocument) (opts : OpenApiOptions)
    (p : String) (pi : PathItemObject) (method : Method) (op : OperationObject)
    (name : String)
    (hmem : (p, pi) ∈ spec.paths)
    (hop : getMethod pi method = Option.some op)
    (hname : getOperationName opts { method := method, path := p } =
      Option.some name)
    (hmiss : jsLookup opts.integrations name = Option.none) :
    applyMethodIntegration scope p method opts op (getOperationName opts) =
      Except.error (missingIntegrationMessage name method p) ∧
    (∀ d, prepareApiSpec scope spec opts ≠ Except.ok d) ∧
    (∃ e, prepareApiSpec scope spec opts = Except.error e ∧
      ∃ name2 method2 p2 pi2 op2,
        (p2, pi2) ∈ spec.paths ∧
        getMethod pi2 method2 = Option.some op2 ∧
        name2 = (getOperationName opts
          { method := method2, path := p2 }).getD "undefined" ∧
        jsLookup opts.integrations name2 = Option.none ∧
        e = missingIntegrationMessage name2 method2 p2) := by
  have hi : applyMethodIntegration scope p method opts op
      (getOperationName opts) =
      Except.error (missingIntegrationMessage name method p) := by
    simp only [applyMethodIntegration, hname, Option.getD_some, hmiss]
  have hno : ∀ d, prepareApiSpec scope spec opts ≠ Except.ok d := by
    intro d hd
    obtain ⟨pi2, hp⟩ := prepareApiSpec_ok_path hd hmem
    obtain ⟨v, hv⟩ := preparePathSpec_ok_method hp method
    rw [hop] at hv
    obtain ⟨op2, ha, _⟩ := composeMethod_ok_some hv
    rw [hi] at ha
    exact Except.noConfusion ha
  refine ⟨hi, hno, ?_⟩
  cases hres : prepareApiSpec scope spec opts with
  | ok d => exact absurd hres (hno d)
  | error e =>
    obtain ⟨p2, pi2, hmem2, hperr⟩ := prepareApiSpec_error_inv hres
    obtain ⟨method2, op2, hop2, haerr⟩ := preparePathSpec_error_inv hperr
    obtain ⟨hj2, he2⟩ := applyMethodIntegration_error_inv haerr
    exact ⟨e, rfl,
      (getOperationName opts { method := method2, path := p2 }).getD "undefined",
      method2, p2, pi2, op2, hmem2, hop2, rfl, hj2, he2⟩

/-- Witness for C1 at a concrete input: one GET operation at `/hello`
resolving to `sayHello`, which is absent from the integrations mapping. -/
theorem missingIntegration_aborts_transform_witness :
    applyMethodIntegration scW "/hello" Method.get optsC1 opA
      (getOperationName optsC1) =
      Except.error (missingIntegrationMessage "sayHello" Method.get "/hello") ∧
    (∀ d, prepareApiSpec scW docC1 optsC1 ≠ Except.ok d) ∧
    (∃ e, prepareApiSpec scW docC1 optsC1 = Except.error e ∧
      ∃ name2 method2 p2 pi2 op2,
        (p2, pi2) ∈ docC1.paths ∧
        getMethod pi2 method2 = Option.some op2 ∧
        name2 = (getOperationName optsC1
          { method := method2, path := p2 }).getD "undefined" ∧
        jsLookup optsC1.integrations name2 = Option.none ∧
        e = missingIntegrationMessage name2 method2 p2) :=
  missingIntegration_aborts_transform scW docC1 optsC1 "/hello"
    { get := Option.some opA } Method.get opA "sayHello"
    (by simp [docC1]) rfl (by decide) (by decide)

/-- Claim C2: when CORS is enabled, for every response entry of every
composed operation the merge of the CORS header definitions into that
response's headers is additive: reading any header name from the composed
response yields the author's original definition whenever the author
defined that name, and the CORS definition exactly when the name is one of
the CORS headers the author did not define. -/
theorem corsHeaderMerge_additive
    (scope : Construct) (path : String) (method : Method)
    (opts : OpenApiOptions) (operation : OperationObject)
    (g : MethodAndPath → Option String) (c : CorsOptions)
    (op' : OperationObject) (sc : String) (resp : ResponseObject)
    (hc : opts.corsOptions = Option.some c)
    (hok : applyMethodIntegration scope path method opts operation g =
      Except.ok op')
    (hmem : (sc, resp) ∈ operation.responses) :
    ∃ resp', (sc, resp') ∈ op'.responses ∧
      ∀ n, jsLookup resp'.headers n =
        match jsLookup resp.headers n with
        | Option.some v => Option.some v
        | Option.none => jsLookup getCorsHeaderDefinitions n := by
  obtain ⟨integ, hj, hop⟩ := applyMethodIntegration_ok_inv hok
  subst hop
  have hcors : corsHeadersIfEnabled opts = getCorsHeaderDefinitions := by
    simp [corsHeadersIfEnabled, hc]
  refine ⟨{ resp with
            headers := spreadMerge (corsHeadersIfEnabled opts) resp.headers },
    ?_, ?_⟩
  · exact List.mem_map_of_mem _ hmem
  · intro n
    show jsLookup (spreadMerge (corsHeadersIfEnabled opts) resp.headers) n = _
    rw [hcors, jsLookup_spreadMerge]
    cases jsLookup resp.headers n <;> rfl

/-- Witness for C2 at a concrete input: the author defines
`Access-Control-Allow-Origin` with a non-CORS schema and it survives the
merge, while the missing `Access-Control-Allow-Methods` is added with the
CORS string schema. -/
theorem corsHeaderMerge_additive_witness :
    ∃ resp',
      ("200", resp') ∈
        ((applyMethodIntegration scW "/hello" Method.get optsC2 opB
          (getOperationName optsC2)).toOption.getD {}).responses ∧
      jsLookup resp'.headers "Access-Control-Allow-Origin" =
        Option.some { schema := { type := "author-defined" } } ∧
      jsLookup resp'.headers "Access-Control-Allow-Methods" =
        Option.some { schema := { type := "string" } } := by
  obtain ⟨resp', hmem, hall⟩ :=
    corsHeaderMerge_additive scW "/hello" Method.get optsC2 opB
      (getOperationName optsC2) corsW _ "200" respB rfl rfl (by decide)
  exact ⟨resp', hmem, (hall _).trans (by decide), (hall _).trans (by decide)⟩

/-- Counterexample to C3 as stated: a policy that supplies the status code
0 (JS `corsOptions.statusCode || 204` treats 0 as falsy) yields a preflight
operation whose single response is keyed "204", not by the policy's
supplied status code "0". -/
theorem corsPreflight_statusCodeZero_counterexample :
    corsZ.statusCode = Option.some 0 ∧
    (generateCorsOptionsMethod {} optsC3).map
      (fun op => op.responses.map Prod.fst) = Option.some ["204"] :=
  ⟨rfl, rfl⟩

/-- Claim C3, amended: the synthetic CORS preflight method is generated iff
CORS options are supplied and the path item defines no OPTIONS method; when
generated it is an OPTIONS operation with exactly one response keyed by the
policy's status code — where a supplied status code of 0 is treated like an
unsupplied one, so the key is 204 when the policy supplies none or supplies
0 — carrying the three CORS header definitions and a mock-type integration
whose default response returns the CORS response-parameter values and an
empty JSON body; and an author-defined OPTIONS method is never overwritten
by it (the composed author operation is what ends up on the path). -/
theorem corsPreflight_generation_amended
    (scope : Construct) (path : String) (pathItem : PathItemObject)
    (opts : OpenApiOptions) (g : MethodAndPath → Option String) :
    ((generateCorsOptionsMethod pathItem opts).isSome = true ↔
      (opts.corsOptions.isSome = true ∧ pathItem.options = Option.none)) ∧
    (∀ c op, opts.corsOptions = Option.some c →
      generateCorsOptionsMethod pathItem opts = Option.some op →
      op.responses =
        [(toString (corsStatusCode c),
          { description := "Default response for CORS method",
            headers := getCorsHeaderDefinitions,
            content := Option.some [] })] ∧
      op.integration = Option.some
        { type := "mock",
          requestTemplates :=
            [("application/json",
              "\x7b\"statusCode\": " ++ toString (corsStatusCode c) ++ "\x7d")],
          responses :=
            [("default",
              { statusCode := toString (corsStatusCode c),
                responseParameters := generateCorsResponseParameters c,
                responseTemplates := [("application/json", "\x7b\x7d")] })] } ∧
      (c.statusCode = Option.none → corsStatusCode c = 204) ∧
      (c.statusCode = Option.some 0 → corsStatusCode c = 204) ∧
      (∀ nn, c.statusCode = Option.some nn → nn ≠ 0 → corsStatusCode c = nn)) ∧
    (∀ authorOp pi2, pathItem.options = Option.some authorOp →
      preparePathSpec scope path pathItem opts g = Except.ok pi2 →
      ∃ co, applyMethodIntegration scope path Method.options opts authorOp g =
        Except.ok co ∧ pi2.options = Option.some co) := by
  refine ⟨?_, ?_, ?_⟩
  · cases hpo : pathItem.options <;> cases hco : opts.corsOptions <;>
      simp [generateCorsOptionsMethod, getMethod, hpo, hco]
  · intro c op hc hop
    by_cases hpo : (getMethod pathItem Method.options).isSome
    · simp [generateCorsOptionsMethod, hpo, hc] at hop
    · simp only [generateCorsOptionsMethod, hpo, Bool.false_eq_true,
        if_false, hc] at hop
      injection hop with hop2
      subst hop2
      refine ⟨rfl, rfl, ?_, ?_, ?_⟩
      · intro hsc; simp [corsStatusCode, hsc]
      · intro hsc; simp [corsStatusCode, hsc]
      · intro nn hsc hnn; simp [corsStatusCode, hsc, hnn]
  · intro authorOp pi2 hpo hok
    have hgen : generateCorsOptionsMethod pathItem opts = Option.none := by
      simp [generateCorsOptionsMethod, getMethod, hpo]
    obtain ⟨vGet, vPut, vPost, vDelete, vOptions, vHead, vPatch, vTrace,
      h1, h2, h3, h4, h5, h6, h7, h8, hrec⟩ := preparePathSpec_ok_inv hok
    rw [hpo] at h5
    obtain ⟨co, ha, hv⟩ := composeMethod_ok_some h5
    refine ⟨co, ha, ?_⟩
    rw [hrec]
    simp [hgen, hv]

/-- Witness for the amended C3: with a supplied status code of 200 the
preflight method is generated with its single response keyed "200"; with an
author-defined OPTIONS method the composed author operation is kept. -/
theorem corsPreflight_generation_amended_witness :
    (generateCorsOptionsMethod {} optsC3b).isSome = true ∧
    ((generateCorsOptionsMethod {} optsC3b).getD {}).responses.map Prod.fst =
      ["200"] ∧
    (∃ co, applyMethodIntegration scW "/hello" Method.options optsC3c opA
        (getOperationName optsC3c) = Except.ok co ∧
      ((preparePathSpec scW "/hello" piAuthor optsC3c
        (getOperationName optsC3c)).toOption.getD {}).options =
          Option.some co) := by
  refine ⟨?_, ?_, ?_⟩
  · exact (corsPreflight_generation_amended scW "/hello" {} optsC3b
      (getOperationName optsC3b)).1.mpr ⟨rfl, rfl⟩
  · obtain ⟨hresp, _, _⟩ := (corsPreflight_generation_amended scW "/hello" {}
      optsC3b (getOperationName optsC3b)).2.1 corsW2
      ((generateCorsOptionsMethod {} optsC3b).getD {}) rfl rfl
    rw [hresp]
    rfl
  · exact (corsPreflight_generation_amended scW "/hello" piAuthor optsC3c
      (getOperationName optsC3c)).2.2 opA
      ((preparePathSpec scW "/hello" piAuthor optsC3c
        (getOperationName optsC3c)).toOption.getD {}) rfl rfl

theorem mem_dedupKeys {κ : Type} [DecidableEq κ] (KS : List κ) (k : κ) :
    k ∈ dedupKeys KS ↔ k ∈ KS := by
  induction KS with
  | nil => simp [dedupKeys]
  | cons k2 rest ih =>
    simp only [dedupKeys, List.mem_cons, List.mem_filter]
    by_cases hk : k = k2
    · subst hk; simp
    · simp [hk, ih]

theorem jsLookup_filterMap_keys {κ α : Type} [DecidableEq κ]
    (l : List (κ × α)) (KS : List κ) (k : κ) :
    jsLookup (KS.filterMap (fun k2 => (jsLookup l k2).map (fun v => (k2, v)))) k =
      if k ∈ KS then jsLookup l k else Option.none := by
  induction KS with
  | nil => simp [jsLookup]
  | cons k2 rest ih =>
    simp only [List.filterMap_cons]
    cases hl : jsLookup l k2 with
    | none =>
      simp only [Option.map_none']
      rw [ih]
      by_cases hmem : k ∈ rest
      · simp [hmem, List.mem_cons]
      · by_cases hk2 : k = k2
        · subst hk2
          simp [hmem, hl, List.mem_cons]
        · simp [hmem, hk2, List.mem_cons]
    | some v =>
      simp only [Option.map_some']
      show jsLookup ((k2, v) :: _) k = _
      simp only [jsLookup, ih]
      by_cases hmem : k ∈ rest
      · cases hlk : jsLookup l k with
        | some w => simp [hmem, List.mem_cons]
        | none =>
          by_cases hk2 : k2 = k
          · subst hk2
            rw [hl] at hlk
            exact Option.noConfusion hlk
          · simp [hmem, hk2, List.mem_cons]
      · by_cases hk2 : k2 = k
        · subst hk2
          simp [hmem, hl, List.mem_cons]
        · have hk2s : ¬(k = k2) := fun h => hk2 h.symm
          simp [hmem, hk2, hk2s, List.mem_cons]

theorem jsLookup_eq_none_of_not_mem_keys {κ α : Type} [DecidableEq κ]
    (l : List (κ × α)) (k : κ) (h : k ∉ l.map Prod.fst) :
    jsLookup l k = Option.none := by
  induction l with
  | nil => rfl
  | cons e rest ih =>
    simp only [List.map_cons, List.mem_cons] at h
    push_neg at h
    obtain ⟨h1, h2⟩ := h
    simp [jsLookup, ih h2, Ne.symm h1]

/-- `Object.fromEntries` is observationally the identity for property
reads: deduplication keeps exactly the value the last entry supplied. -/
theorem jsLookup_jsFromEntries {α : Type} (l : List (String × α)) (k : String) :
    jsLookup (jsFromEntries l) k = jsLookup l k := by
  unfold jsFromEntries
  rw [jsLookup_filterMap_keys]
  by_cases hmem : k ∈ dedupKeys (l.map Prod.fst)
  · simp [hmem]
  · have hk : k ∉ l.map Prod.fst := fun hk2 =>
      hmem ((mem_dedupKeys (l.map Prod.fst) k).mpr hk2)
    simp [hmem, jsLookup_eq_none_of_not_mem_keys l k hk]

/-- Claim C4: for every composed operation the effective authorizer is the
integration-level authorizer when the integration supplies one, otherwise
the document-level default when supplied, otherwise the built-in
no-authorization variant; the composed operation's security fragment is the
one produced for that effective authorizer. -/
theorem authorizerResolution_order
    (scope : Construct) (path : String) (method : Method)
    (opts : OpenApiOptions) (operation : OperationObject)
    (g : MethodAndPath → Option String) (integ : OpenApiIntegration)
    (hint : jsLookup opts.integrations
      ((g { method := method, path := path }).getD "undefined") =
        Option.some integ) :
    ∃ op', applyMethodIntegration scope path method opts operation g =
        Except.ok op' ∧
      op'.security = Option.some (applyMethodAuthorizer
        (resolveAuthorizer integ.authorizer opts.defaultAuthorizer)) ∧
      (∀ a, integ.authorizer = Option.some a →
        resolveAuthorizer integ.authorizer opts.defaultAuthorizer = a) ∧
      (∀ d, integ.authorizer = Option.none →
        opts.defaultAuthorizer = Option.some d →
        resolveAuthorizer integ.authorizer opts.defaultAuthorizer = d) ∧
      (integ.authorizer = Option.none → opts.defaultAuthorizer = Option.none →
        resolveAuthorizer integ.authorizer opts.defaultAuthorizer =
          Authorizer.none) := by
  cases hres : applyMethodIntegration scope path method opts operation g with
  | error e =>
    obtain ⟨hj, _⟩ := applyMethodIntegration_error_inv hres
    rw [hint] at hj
    exact Option.noConfusion hj
  | ok op' =>
    obtain ⟨integ2, hj2, hop⟩ := applyMethodIntegration_ok_inv hres
    rw [hint] at hj2
    injection hj2 with hi2
    subst hi2
    refine ⟨op', rfl, ?_, ?_, ?_, ?_⟩
    · rw [hop]
    · intro a ha
      simp [resolveAuthorizer, ha]
    · intro d ha hd
      simp [resolveAuthorizer, ha, hd]
    · intro ha hd
      simp [resolveAuthorizer, ha, hd]

/-- Witness for C4 at a concrete input: an integration-level custom
authorizer wins over the supplied IAM default. -/
theorem authorizerResolution_order_witness :
    ∃ op', applyMethodIntegration scW "/hello" Method.get optsC4 opA
        (getOperationName optsC4) = Except.ok op' ∧
      op'.security = Option.some (SecurityRequirement.customScheme "authX") := by
  obtain ⟨op', hok, hsec, hcase, _, _⟩ :=
    authorizerResolution_order scW "/hello" Method.get optsC4 opA
      (getOperationName optsC4)
      { function := fnA, authorizer := Option.some authC } rfl
  refine ⟨op', hok, ?_⟩
  rw [hsec, hcase authC rfl]
  rfl

/-- Claim C5: when two operation identifiers in the operation lookup map to
the same method and path, the reverse index resolves that (method, path) to
the identifier of the last-inserted entry, and the transform does not
reject such a collision (shown on a concrete colliding configuration that
composes successfully, resolving to the later identifier). -/
theorem operationLookup_lastWriteWins :
    (∀ (opts : OpenApiOptions) (l : List (String × MethodAndPath))
       (idA idB : String) (mp : MethodAndPath),
      opts.operationLookup = l ++ [(idB, mp)] →
      (idA, mp) ∈ l → idA ≠ idB →
      getOperationName opts mp = Option.some idB) ∧
    (prepareApiSpec scW docC5 optsC5).isOk = true ∧
    getOperationName optsC5 mpPets = Option.some "getPets" := by
  refine ⟨?_, rfl, rfl⟩
  intro opts l idA idB mp hlk _ _
  unfold getOperationName operationNameByPath
  rw [jsLookup_jsFromEntries, hlk, List.map_append, jsLookup_append]
  simp [jsLookup]

/-- Witness for C5 at a concrete input: `listPets` and `getPets` both map
to GET `/pets`; the reverse index resolves to the later `getPets`. -/
theorem operationLookup_lastWriteWins_witness :
    getOperationName optsC5 mpPets = Option.some "getPets" :=
  operationLookup_lastWriteWins.1 optsC5 [("listPets", mpPets)] "listPets"
    "getPets" mpPets rfl (List.mem_singleton.mpr rfl) (by decide)

/-- Counterexample to C6 as stated: with an integrations mapping that
contains the literal key "undefined", a (method, path) absent from the
reverse index is NOT treated as fatal — the unresolved JS `undefined` is
coerced to the property key "undefined", the membership test passes, and
the operation is composed with that entry's integration; the whole
transform succeeds. -/
theorem lookupMiss_fallbackIntegration_counterexample :
    getOperationName optsC6 { method := Method.get, path := "/pets" } =
      Option.none ∧
    (applyMethodIntegration scW "/pets" Method.get optsC6 opA
      (getOperationName optsC6)).isOk = true ∧
    (prepareApiSpec scW docC6 optsC6).isOk = true :=
  ⟨rfl, rfl, rfl⟩

/-- Claim C6, amended: for every (method, path) present in the document but
absent from the reverse index, the composer fails with the
missing-integration error — with the string "undefined" in place of the
operation identifier — and the whole transform aborts, provided the
integrations mapping does not itself contain the literal key "undefined"
(in which case the operation is composed with that entry instead, as the
counterexample shows). -/
theorem lookupMiss_fatal_amended
    (scope : Construct) (spec : ApiDocument) (opts : OpenApiOptions)
    (p : String) (pi : PathItemObject) (method : Method) (op : OperationObject)
    (hmem : (p, pi) ∈ spec.paths)
    (hop : getMethod pi method = Option.some op)
    (hnone : getOperationName opts { method := method, path := p } =
      Option.none)
    (hu : jsLookup opts.integrations "undefined" = Option.none) :
    applyMethodIntegration scope p method opts op (getOperationName opts) =
      Except.error (missingIntegrationMessage "undefined" method p) ∧
    (∀ d, prepareApiSpec scope spec opts ≠ Except.ok d) := by
  have hi : applyMethodIntegration scope p method opts op
      (getOperationName opts) =
      Except.error (missingIntegrationMessage "undefined" method p) := by
    simp only [applyMethodIntegration, hnone, Option.getD_none, hu]
  refine ⟨hi, ?_⟩
  intro d hd
  obtain ⟨pi2, hp⟩ := prepareApiSpec_ok_path hd hmem
  obtain ⟨v, hv⟩ := preparePathSpec_ok_method hp method
  rw [hop] at hv
  obtain ⟨op2, ha, _⟩ := composeMethod_ok_some hv
  rw [hi] at ha
  exact Except.noConfusion ha

/-- Witness for the amended C6 at a concrete input: no lookup entry for
GET `/pets` and no "undefined" key, so the composer throws the
missing-integration error naming "undefined", and the transform yields no
document. -/
theorem lookupMiss_fatal_amended_witness :
    applyMethodIntegration scW "/pets" Method.get optsC6b opA
      (getOperationName optsC6b) =
      Except.error (missingIntegrationMessage "undefined" Method.get "/pets") ∧
    (∀ d, prepareApiSpec scW docC6b optsC6b ≠ Except.ok d) :=
  lookupMiss_fatal_amended scW docC6b optsC6b "/pets"
    { get := Option.some opA } Method.get opA
    (List.mem_singleton.mpr rfl) rfl rfl rfl

/-- Counterexample to C7 as stated: a CORS policy with an empty
allowedOrigins list is NOT rejected — the transform succeeds and the
produced document carries an Access-Control-Allow-Origin response
parameter whose value is the useless empty single-quoted string. -/
theorem emptyAllowOrigins_notRejected_counterexample :
    corsEmpty.allowOrigins = [] ∧
    (prepareApiSpec scW docC7 optsC7).isOk = true ∧
    ((prepareApiSpec scW docC7 optsC7).toOption.bind (fun d =>
      (jsLookup d.gatewayResponses "BAD_REQUEST_BODY").bind (fun gr =>
        gr.responseParameters.bind (fun ps =>
          jsLookup ps "gatewayresponse.header.Access-Control-Allow-Origin")))) =
      Option.some "\x27\x27" :=
  ⟨rfl, rfl, rfl⟩

/-- Claim C7, amended: the transform performs no validation of
allowedOrigins; an empty list produces the Access-Control-Allow-Origin
value `''` (an empty single-quoted string) in the CORS response headers,
and composition proceeds without error. -/
theorem emptyAllowOrigins_amended
    (c : CorsOptions) (scope : Construct) (path : String) (method : Method)
    (opts : OpenApiOptions) (operation : OperationObject)
    (g : MethodAndPath → Option String) (integ : OpenApiIntegration)
    (hempty : c.allowOrigins = [])
    (hint : jsLookup opts.integrations
      ((g { method := method, path := path }).getD "undefined") =
        Option.some integ) :
    jsLookup (generateCorsResponseHeaders c) "Access-Control-Allow-Origin" =
      Option.some "\x27\x27" ∧
    (applyMethodIntegration scope path method opts operation g).isOk = true := by
  constructor
  · simp only [generateCorsResponseHeaders, hempty]
    rfl
  · cases hres : applyMethodIntegration scope path method opts operation g with
    | error e =>
      obtain ⟨hj, _⟩ := applyMethodIntegration_error_inv hres
      rw [hint] at hj
      exact Option.noConfusion hj
    | ok op' => rfl

/-- Witness for the amended C7 at a concrete input. -/
theorem emptyAllowOrigins_amended_witness :
    jsLookup (generateCorsResponseHeaders corsEmpty)
      "Access-Control-Allow-Origin" = Option.some "\x27\x27" ∧
    (applyMethodIntegration scW "/pets" Method.get optsC7 opA
      (getOperationName optsC7)).isOk = true :=
  emptyAllowOrigins_amended corsEmpty scW "/pets" Method.get optsC7 opA
    (getOperationName optsC7) { function := fnA } rfl rfl

/-- Counterexample to C8 as stated: when the same backend function backs
two operations, the labelled list contains that function handle twice (one
entry per operation id), not exactly once. -/
theorem labelledFunctions_duplicate_counterexample :
    ((getLabelledFunctions optsC8).filter
      (fun lf => lf.function == fnShared)).length = 2 :=
  rfl

/-- Claim C8, amended: the labelled list returned for the caller is the
authorizer functions (one per collected custom authorizer, labelled by
authorizer id) concatenated with one entry per integration (labelled by
operation id); every integration contributes its own entry, so a function
referenced by several operations or authorizers appears once per reference
rather than once overall. -/
theorem labelledFunctions_amended (opts : OpenApiOptions) :
    getLabelledFunctions opts =
      getLabelledAuthorizerFunctions opts ++
        getLabelledIntegrationFunctions opts ∧
    (getLabelledIntegrationFunctions opts).length =
      opts.integrations.length ∧
    (∀ opId integ, (opId, integ) ∈ opts.integrations →
      ({ label := opId, function := integ.function } : LabelledFunction) ∈
        getLabelledFunctions opts) := by
  refine ⟨rfl, by simp [getLabelledIntegrationFunctions], ?_⟩
  intro opId integ hmem
  unfold getLabelledFunctions
  refine List.mem_append_right _ ?_
  exact List.mem_map_of_mem _ hmem

/-- Witness for the amended C8 at a concrete input: both operations sharing
one function contribute their own labelled entries. -/
theorem labelledFunctions_amended_witness :
    ({ label := "sayGoodbye", function := fnShared } : LabelledFunction) ∈
      getLabelledFunctions optsC8 :=
  (labelledFunctions_amended optsC8).2.2 "sayGoodbye" { function := fnShared }
    (by simp [optsC8])

/-- Claim C9: the composed operation equals the original on every field
other than responses, the integration-descriptor extension and the security
requirement (everything else is carried in the operation's `rest` and
preserved); the composed path item equals the original on every non-method
field (its `rest`, e.g. shared parameters, is preserved). -/
theorem composition_frame_preservation
    (scope : Construct) (path : String) (method : Method)
    (opts : OpenApiOptions) (operation : OperationObject)
    (g : MethodAndPath → Option String) (op' : OperationObject)
    (pathItem : PathItemObject) (pi2 : PathItemObject) :
    (applyMethodIntegration scope path method opts operation g =
        Except.ok op' → op'.rest = operation.rest) ∧
    (preparePathSpec scope path pathItem opts g = Except.ok pi2 →
      pi2.rest = pathItem.rest) := by
  constructor
  · intro h
    obtain ⟨integ, _, hop⟩ := applyMethodIntegration_ok_inv h
    rw [hop]
  · intro h
    obtain ⟨vGet, vPut, vPost, vDelete, vOptions, vHead, vPatch, vTrace,
      _, _, _, _, _, _, _, _, hrec⟩ := preparePathSpec_ok_inv h
    rw [hrec]

/-- Witness for C9 at a concrete input: the operation's extra fields and
the path item's non-method fields survive composition verbatim. -/
theorem composition_frame_preservation_witness :
    ((applyMethodIntegration scW "/hello" Method.get optsC2 opC9
      (getOperationName optsC2)).toOption.getD {}).rest =
      [("summary", "Say hello"), ("operationId", "sayHello")] ∧
    ((preparePathSpec scW "/hello" piC9 optsC2
      (getOperationName optsC2)).toOption.getD {}).rest =
      [("parameters", "shared")] := by
  have h := composition_frame_preservation scW "/hello" Method.get optsC2 opC9
    (getOperationName optsC2)
    ((applyMethodIntegration scW "/hello" Method.get optsC2 opC9
      (getOperationName optsC2)).toOption.getD {})
    piC9
    ((preparePathSpec scW "/hello" piC9 optsC2
      (getOperationName optsC2)).toOption.getD {})
  exact ⟨(h.1 rfl).trans rfl, (h.2 rfl).trans rfl⟩

/-- Claim C10: whenever the synthetic CORS preflight OPTIONS method is
generated for a path, the generated operation carries no security
requirement — no authorizer is applied to it — even when a default
authorizer is supplied in the options (the options are universally
quantified, so in particular they may carry any default authorizer). -/
theorem corsPreflight_noAuth
    (scope : Construct) (path : String) (pathItem : PathItemObject)
    (opts : OpenApiOptions) (g : MethodAndPath → Option String)
    (c : CorsOptions) (pi2 : PathItemObject)
    (hc : opts.corsOptions = Option.some c)
    (hno : pathItem.options = Option.none)
    (hok : preparePathSpec scope path pathItem opts g = Except.ok pi2) :
    ∃ co, generateCorsOptionsMethod pathItem opts = Option.some co ∧
      pi2.options = Option.some co ∧ co.security = Option.none := by
  have hgen : ∃ co, generateCorsOptionsMethod pathItem opts = Option.some co ∧
      co.security = Option.none := by
    simp only [generateCorsOptionsMethod, getMethod, hno, Option.isSome_none,
      Bool.false_eq_true, if_false, hc]
    exact ⟨_, rfl, rfl⟩
  obtain ⟨co, hgeq, hsec⟩ := hgen
  obtain ⟨vGet, vPut, vPost, vDelete, vOptions, vHead, vPatch, vTrace,
    h1, h2, h3, h4, h5, h6, h7, h8, hrec⟩ := preparePathSpec_ok_inv hok
  refine ⟨co, hgeq, ?_, hsec⟩
  rw [hrec]
  simp [hgeq]

/-- Witness for C10 at a concrete input with an IAM default authorizer
supplied: the generated preflight operation still carries no security
requirement. -/
theorem corsPreflight_noAuth_witness :
    ∃ co, generateCorsOptionsMethod piC10 optsC10 = Option.some co ∧
      ((preparePathSpec scW "/pets" piC10 optsC10
        (getOperationName optsC10)).toOption.getD {}).options =
          Option.some co ∧
      co.security = Option.none :=
  corsPreflight_noAuth scW "/pets" piC10 optsC10 (getOperationName optsC10)
    corsW
    ((preparePathSpec scW "/pets" piC10 optsC10
      (getOperationName optsC10)).toOption.getD {})
    rfl rfl rfl
